import Mathlib

/-! Audio-Recording: `sound::audio_input` and its WAV writer.

A shallow embedding of `audio_input/audio_input.h` and
`audio_input/audio_input.cpp`.

* Machine integers are `Nat` (unsigned) or `Int` (signed) with the wrap-around of
  their C++ type written out.  The target is Windows (`Windows.h`, `winmm`), so
  `unsigned short` has 16 bits, `int`, `unsigned long` and `DWORD` have 32 bits and
  `char` is a signed byte.
* The wave-in driver is outside the repository.  Every driver call is recorded
  in the ghost field `driver_calls`, and the `MMRESULT` it returns is an argument
  of the operation that issues the call.  The driver writes a capture buffer and
  its header when it completes the buffer; a completion is an input of the
  worker, the only code that reads buffers and headers.  What the driver does to
  the headers inside `waveInStart` and `waveInReset` is not part of the model of
  `record`, `stop` and `reset`, which never read them.
* `std::ofstream` is a byte sequence with a put position.
* The loop of `export_file` over the store has an `unsigned long` index, which
  wraps at 2^32, so it need not end: `export_file` takes a bound on the number of
  passes of that loop and says whether it has returned within the bound.
* The constructor of `wav_file` that takes a name reads the four chars that end
  where the name ends, without a test of the length of the name: for a name
  shorter than four chars these take in chars that lie in memory before the
  name, which are an argument of the constructor.
* The capture worker `_record` runs on its own thread.  What it reads from the
  other two execution contexts is an argument: the buffer completions of the
  driver, in delivery order, and the number of evaluations of its loop condition
  that still read `recording`.
-/

namespace sound

/-! ## Machine types -/

/-- Buffer element, `using sample = char`: a signed byte, between -128 and 127. -/
abbrev sample := Int

/-- Result code of a wave-in driver call (`MMRESULT`, an unsigned int). -/
abbrev MMRESULT := Nat

/-- Conversion `static_cast<char>` of an integer: the low eight bits, read as a
signed byte. -/
def static_cast_char (v : Int) : Int := (v + 128) % 256 - 128

/-- Conversion `static_cast<unsigned short>`: reduction modulo 2^16. -/
def static_cast_unsigned_short (v : Int) : Nat := (v % 65536).toNat

/-- Conversion to `unsigned long` (32 bits on the target): reduction modulo 2^32. -/
def static_cast_unsigned_long (v : Int) : Nat := (v % 4294967296).toNat

/-- Wrap-around of a 32-bit `int` result. -/
def static_cast_int (v : Int) : Int := (v + 2147483648) % 4294967296 - 2147483648

/-- A `char` is in the range of its type. -/
def is_char (c : Int) : Prop := -128 ≤ c ∧ c ≤ 127

instance (c : Int) : Decidable (is_char c) := by
  unfold is_char
  exact inferInstance

/-! ## Constants of the Windows multimedia headers

The result codes, flag and format tag the repository uses, with the values that
`mmsystem.h` and `mmeapi.h` give them. -/

def MMSYSERR_NOERROR : MMRESULT := 0
def MMSYSERR_ERROR : MMRESULT := 1
def MMSYSERR_BADDEVICEID : MMRESULT := 2
def MMSYSERR_ALLOCATED : MMRESULT := 4
def MMSYSERR_INVALHANDLE : MMRESULT := 5
def MMSYSERR_NODRIVER : MMRESULT := 6
def MMSYSERR_NOMEM : MMRESULT := 7
def WAVERR_BADFORMAT : MMRESULT := 32
def WAVERR_UNPREPARED : MMRESULT := 34
def WAVE_FORMAT_PCM : Nat := 1
def WHDR_DONE : Nat := 1
def WAVE_MAPPER : Nat := 4294967295

/-! ## Exceptions -/

/-- The three exception classes of the repository: `std::runtime_error` and its
two subclasses `sound::bad_device_id` and `sound::bad_format`, with the message. -/
inductive exception where
  | runtime_error (what : String)
  | bad_device_id (what : String)
  | bad_format (what : String)
  deriving DecidableEq, Repr

/-! ## Data model -/

/-- Format descriptor `WAVEFORMATEX`: the `WORD` fields have 16 bits, the `DWORD`
fields 32. -/
structure WAVEFORMATEX where
  wFormatTag : Nat
  nChannels : Nat
  nSamplesPerSec : Nat
  nAvgBytesPerSec : Nat
  nBlockAlign : Nat
  wBitsPerSample : Nat
  cbSize : Nat
  deriving DecidableEq, Repr

/-- Buffer header `WAVEHDR`, the fields the repository uses. -/
structure WAVEHDR where
  dwBufferLength : Nat
  dwBytesRecorded : Nat
  dwFlags : Nat
  deriving DecidableEq, Repr

/-- Session state, `enum class device_state`. -/
inductive device_state where
  | idle
  | recording
  deriving DecidableEq, Repr

/-- A call into the wave-in driver; the two capture buffers are numbered 1 and 2. -/
inductive driver_call where
  | waveInGetDevCaps
  | waveInOpen
  | waveInPrepareHeader (buffer : Nat)
  | waveInAddBuffer (buffer : Nat)
  | waveInStart
  | waveInReset
  deriving DecidableEq, Repr

/-- The class `sound::audio_input`.  `record_thread` is true while the thread
object is joinable; `driver_calls` is the ghost log of the driver calls issued so
far, oldest first. -/
structure audio_input where
  record_thread : Bool
  buffer1 : List sample
  buffer2 : List sample
  audio_block : List sample
  format_params : WAVEFORMATEX
  buffer1_params : WAVEHDR
  buffer2_params : WAVEHDR
  current_state : device_state
  driver_calls : List driver_call
  deriving DecidableEq, Repr

/-- How a member function ends: it returns, or it throws; either way the object
is left in the state given. -/
inductive outcome where
  | returned (dev : audio_input)
  | thrown (e : exception) (dev : audio_input)
  deriving DecidableEq, Repr

/-- The object a member function leaves behind. -/
def outcome.dev : outcome → audio_input
  | outcome.returned d => d
  | outcome.thrown _ d => d

/-- An output file stream opened in binary mode: the bytes of the file and the
put position. -/
structure ofstream where
  bytes : List sample
  pos : Nat
  deriving DecidableEq, Repr

namespace ofstream

/-- Member `put`: one byte at the put position, over the byte that is there or
at the end of the file (a gap left by a seek past the end reads as zeros). -/
def put (f : ofstream) (c : sample) : ofstream :=
  { bytes := f.bytes.take f.pos ++ List.replicate (f.pos - f.bytes.length) 0
               ++ c :: f.bytes.drop (f.pos + 1),
    pos := f.pos + 1 }

/-- Stream insertion `file << "..."` of a string literal, character by character. -/
def insert_string (f : ofstream) (s : String) : ofstream :=
  s.data.foldl (fun g ch => g.put (Int.ofNat ch.toNat)) f

/-- Member `seekp`. -/
def seekp (f : ofstream) (p : Nat) : ofstream := { f with pos := p }

/-- Member `tellp`. -/
def tellp (f : ofstream) : Nat := f.pos

end ofstream

namespace audio_input

def buffer_size : Nat := 4096

/-- The nested class `audio_input::wav_file`; `file_name` is the name the file
was opened with. -/
structure wav_file where
  file : ofstream
  file_name : List Char
  current_device : audio_input
  channels : Nat
  pcm_resolution : Nat
  sample_rate : Nat
  data_transfer_rate : Nat
  deriving DecidableEq, Repr

end audio_input

/-! ## Free functions and error conversion -/

/-- The member `audio_input::handle_error`: seven result codes become
exceptions, every other code returns. -/
def audio_input.handle_error (err : MMRESULT) : Except exception Unit :=
  if err = MMSYSERR_INVALHANDLE then
    Except.error (exception.runtime_error "Specified device handle is invalid.")
  else if err = MMSYSERR_NODRIVER then
    Except.error (exception.runtime_error "No device driver is present.")
  else if err = MMSYSERR_NOMEM then
    Except.error (exception.runtime_error "Unable to allocate or lock memory.")
  else if err = WAVERR_UNPREPARED then
    Except.error (exception.runtime_error
      "The buffer pointed to by the pwh parameter hasn't been prepared.")
  else if err = MMSYSERR_ALLOCATED then
    Except.error (exception.runtime_error "Specified resource is already allocated.")
  else if err = MMSYSERR_BADDEVICEID then
    Except.error (exception.bad_device_id "Specified device identifier is out of range.")
  else if err = WAVERR_BADFORMAT then
    Except.error (exception.bad_format
      "Attempted to open with an unsupported waveform-audio format.")
  else Except.ok ()

/-- The result codes `handle_error` turns into an exception, in the order it
tests them. -/
def audio_input.error_codes : List MMRESULT :=
  [MMSYSERR_INVALHANDLE, MMSYSERR_NODRIVER, MMSYSERR_NOMEM, WAVERR_UNPREPARED,
   MMSYSERR_ALLOCATED, MMSYSERR_BADDEVICEID, WAVERR_BADFORMAT]

/-! ## The session: construction and lifecycle -/

/-- The results the driver returns to the six calls the constructor issues, in
call order. -/
structure open_results where
  waveInGetDevCaps : MMRESULT
  waveInOpen : MMRESULT
  waveInPrepareHeader1 : MMRESULT
  waveInPrepareHeader2 : MMRESULT
  waveInAddBuffer1 : MMRESULT
  waveInAddBuffer2 : MMRESULT
  deriving DecidableEq, Repr

/-- The initialiser list of the constructor: `format_params`, the two buffers of
`buffer_size` zero bytes, their headers and the idle state.  The byte rate is
computed in `unsigned long` and the block alignment in `int`, and both are then
converted with `static_cast<unsigned short>`. -/
def audio_input.initial (sample_rate bit_depth channels : Nat) : audio_input :=
  { record_thread := false
    buffer1 := List.replicate audio_input.buffer_size 0
    buffer2 := List.replicate audio_input.buffer_size 0
    audio_block := []
    format_params :=
      { wFormatTag := WAVE_FORMAT_PCM
        nChannels := channels
        nSamplesPerSec := sample_rate
        nAvgBytesPerSec :=
          static_cast_unsigned_short
            (Int.ofNat ((sample_rate * channels % 4294967296 * bit_depth) % 4294967296 / 8))
        nBlockAlign :=
          static_cast_unsigned_short
            (Int.tdiv (static_cast_int (Int.ofNat channels * Int.ofNat bit_depth)) 8)
        wBitsPerSample := bit_depth
        cbSize := 0 }
    buffer1_params :=
      { dwBufferLength := audio_input.buffer_size, dwBytesRecorded := 0, dwFlags := 0 }
    buffer2_params :=
      { dwBufferLength := audio_input.buffer_size, dwBytesRecorded := 0, dwFlags := 0 }
    current_state := device_state.idle
    driver_calls := [] }

/-- The constructor `audio_input::audio_input`: after the initialiser list, six
driver calls, each followed by `handle_error`; an exception leaves no object. -/
def audio_input.ctor (drv : open_results)
    (device_id sample_rate bit_depth channels : Nat) : Except exception audio_input := do
  let dev := audio_input.initial sample_rate bit_depth channels
  let _ := device_id
  audio_input.handle_error drv.waveInGetDevCaps
  audio_input.handle_error drv.waveInOpen
  audio_input.handle_error drv.waveInPrepareHeader1
  audio_input.handle_error drv.waveInPrepareHeader2
  audio_input.handle_error drv.waveInAddBuffer1
  audio_input.handle_error drv.waveInAddBuffer2
  pure { dev with
    driver_calls :=
      [driver_call.waveInGetDevCaps, driver_call.waveInOpen,
       driver_call.waveInPrepareHeader 1, driver_call.waveInPrepareHeader 2,
       driver_call.waveInAddBuffer 1, driver_call.waveInAddBuffer 2] }

/-- The member `audio_input::record`; `err` is what `waveInStart` returns.
Starting the thread makes `record_thread` joinable (in an idle session the
thread object is not joinable, since `stop` and `reset` join it). -/
def audio_input.record (err : MMRESULT) (dev : audio_input) : outcome :=
  if dev.current_state = device_state.idle then
    let dev := { dev with driver_calls := dev.driver_calls ++ [driver_call.waveInStart] }
    match audio_input.handle_error err with
    | Except.error e => outcome.thrown e dev
    | Except.ok _ =>
      outcome.returned
        { dev with current_state := device_state.recording, record_thread := true }
  else outcome.returned dev

/-- The member `audio_input::reset`; `err` is what `waveInReset` returns.  The
join is taken to return: it is applied to a session whose worker leaves its
loop (see `_record`). -/
def audio_input.reset (err : MMRESULT) (dev : audio_input) : outcome :=
  let dev := { dev with driver_calls := dev.driver_calls ++ [driver_call.waveInReset] }
  match audio_input.handle_error err with
  | Except.error e => outcome.thrown e dev
  | Except.ok _ =>
    let dev :=
      if dev.current_state = device_state.recording then
        { dev with current_state := device_state.idle, record_thread := false }
      else dev
    outcome.returned { dev with audio_block := [] }

/-- The member `audio_input::clear`. -/
def audio_input.clear (dev : audio_input) : audio_input :=
  { dev with audio_block := [] }

/-- The member `audio_input::stop`; `err` is what `waveInReset` returns.  The
join is taken to return, as in `reset`. -/
def audio_input.stop (err : MMRESULT) (dev : audio_input) : outcome :=
  let dev := { dev with driver_calls := dev.driver_calls ++ [driver_call.waveInReset] }
  match audio_input.handle_error err with
  | Except.error e => outcome.thrown e dev
  | Except.ok _ =>
    if dev.current_state = device_state.recording then
      outcome.returned { dev with current_state := device_state.idle, record_thread := false }
    else outcome.returned dev

/-- The member `audio_input::bytes_recorded`. -/
def audio_input.bytes_recorded (dev : audio_input) : Nat :=
  static_cast_unsigned_long (Int.ofNat dev.audio_block.length)

/-! ## The capture worker -/

/-- One buffer completion as the driver delivers it: the contents of the whole
capture buffer and the count it stores in `dwBytesRecorded`. -/
structure completion where
  data : List sample
  dwBytesRecorded : Nat
  deriving DecidableEq, Repr

/-- A completion the driver can deliver: the buffer keeps its `buffer_size`
chars and the count does not exceed it. -/
def completion.valid (c : completion) : Prop :=
  c.data.length = audio_input.buffer_size ∧ c.dwBytesRecorded ≤ audio_input.buffer_size ∧
    ∀ x ∈ c.data, is_char x

/-- The bytes of a completion that count: the first `dwBytesRecorded` of the buffer. -/
def completion.filled (c : completion) : List sample := c.data.take c.dwBytesRecorded

/-- How the worker thread ends up: it has left its loop, or it waits for a
completion that never comes. -/
inductive worker where
  | exited (dev : audio_input)
  | blocked (dev : audio_input)
  deriving DecidableEq, Repr

/-- The driver completes buffer 1: it fills the buffer, stores the count and sets
the bit `WHDR_DONE`. -/
def audio_input.complete1 (c : completion) (dev : audio_input) : audio_input :=
  { dev with
    buffer1 := c.data
    buffer1_params :=
      { dev.buffer1_params with
        dwBytesRecorded := c.dwBytesRecorded
        dwFlags := dev.buffer1_params.dwFlags ||| WHDR_DONE } }

/-- The driver completes buffer 2. -/
def audio_input.complete2 (c : completion) (dev : audio_input) : audio_input :=
  { dev with
    buffer2 := c.data
    buffer2_params :=
      { dev.buffer2_params with
        dwBytesRecorded := c.dwBytesRecorded
        dwFlags := dev.buffer2_params.dwFlags ||| WHDR_DONE } }

/-- The wait `buffer_control.wait(record_lock, pred)` on buffer 1: it returns at
once when `(dwFlags & 0x1) == WHDR_DONE` holds, otherwise it sleeps until the
next completion arrives; `none` when no completion is left to wake it. -/
def audio_input.wait1 (cs : List completion) (dev : audio_input) :
    Option (List completion × audio_input) :=
  if dev.buffer1_params.dwFlags &&& 1 = WHDR_DONE then some (cs, dev)
  else
    match cs with
    | [] => none
    | c :: cs => some (cs, audio_input.complete1 c dev)

/-- The wait on buffer 2. -/
def audio_input.wait2 (cs : List completion) (dev : audio_input) :
    Option (List completion × audio_input) :=
  if dev.buffer2_params.dwFlags &&& 1 = WHDR_DONE then some (cs, dev)
  else
    match cs with
    | [] => none
    | c :: cs => some (cs, audio_input.complete2 c dev)

/-- The call `waveInAddBuffer` of the worker on buffer 1: the call is logged and
the driver, taking the buffer back into its queue, clears `WHDR_DONE`.  The
result code is not looked at by the worker. -/
def audio_input.resubmit1 (dev : audio_input) : audio_input :=
  { dev with
    driver_calls := dev.driver_calls ++ [driver_call.waveInAddBuffer 1]
    buffer1_params :=
      { dev.buffer1_params with
        dwFlags := dev.buffer1_params.dwFlags ^^^ (dev.buffer1_params.dwFlags &&& WHDR_DONE) } }

/-- The call `waveInAddBuffer` of the worker on buffer 2. -/
def audio_input.resubmit2 (dev : audio_input) : audio_input :=
  { dev with
    driver_calls := dev.driver_calls ++ [driver_call.waveInAddBuffer 2]
    buffer2_params :=
      { dev.buffer2_params with
        dwFlags := dev.buffer2_params.dwFlags ^^^ (dev.buffer2_params.dwFlags &&& WHDR_DONE) } }

/-- The worker `audio_input::_record`.

`current_state` is volatile and is written by the caller's thread (`stop`,
`reset`, the destructor) while the worker runs: `k` is the number of evaluations
of the loop condition that come before that write.  `cs` are all the completions
the driver delivers from now on, those that `waveInReset` brings about included,
in delivery order; they arrive alternately for buffer 1 and buffer 2, the order
in which the buffers are queued.  Each pass
waits for buffer 1, appends its first `dwBytesRecorded` chars to `audio_block`,
hands it back to the driver, and does the same with buffer 2. -/
def audio_input._record : Nat → List completion → audio_input → worker
  | 0, _, dev => worker.exited dev
  | k + 1, cs, dev =>
    if dev.current_state = device_state.recording then
      match audio_input.wait1 cs dev with
      | none => worker.blocked dev
      | some (cs, dev) =>
        let dev :=
          { dev with
            audio_block :=
              dev.audio_block ++ dev.buffer1.take dev.buffer1_params.dwBytesRecorded }
        let dev := audio_input.resubmit1 dev
        match audio_input.wait2 cs dev with
        | none => worker.blocked dev
        | some (cs, dev) =>
          let dev :=
            { dev with
              audio_block :=
                dev.audio_block ++ dev.buffer2.take dev.buffer2_params.dwBytesRecorded }
          let dev := audio_input.resubmit2 dev
          audio_input._record k cs dev
    else worker.exited dev

/-- A recording from start to stop: `record()` on the caller's thread, the
worker over the completions `cs`, and `stop()`, whose join returns only when the
worker has left its loop.  The driver accepts both calls.  The result is the
session as the caller sees it after `stop()`; `none` when `stop()` never returns
because the worker stays blocked in a wait. -/
def audio_input.record_then_stop (k : Nat) (cs : List completion) (dev : audio_input) :
    Option audio_input :=
  match audio_input.record MMSYSERR_NOERROR dev with
  | outcome.thrown _ _ => none
  | outcome.returned dev =>
    match audio_input._record k cs dev with
    | worker.blocked _ => none
    | worker.exited dev =>
      match audio_input.stop MMSYSERR_NOERROR dev with
      | outcome.thrown _ _ => none
      | outcome.returned dev => some dev

/-! ## The WAV writer -/

/-- The member initialisers shared by the two constructors of `wav_file`: the
format fields are copied from `format_params` of the device, and the file is
empty with the put position at its start. -/
def audio_input.wav_file.initial (dev : audio_input) (file_name : List Char) :
    audio_input.wav_file :=
  { file := { bytes := [], pos := 0 }
    file_name := file_name
    current_device := dev
    channels := dev.format_params.nChannels
    pcm_resolution := dev.format_params.wBitsPerSample
    sample_rate := dev.format_params.nSamplesPerSec
    data_transfer_rate := dev.format_params.nAvgBytesPerSec }

/-- The constructor `wav_file(const audio_input*)`, which opens `tmp.wav`;
`good` is what `file.good()` answers after the open. -/
def audio_input.wav_file.ctor (good : Bool) (dev : audio_input) :
    Except exception audio_input.wav_file :=
  if good then Except.ok (audio_input.wav_file.initial dev "tmp.wav".data)
  else Except.error (exception.runtime_error "Could not open tmp.wav.")

/-- The constructor `wav_file(const audio_input*, std::string&)`.

It compares the four chars of the range
`[file_name.end() - extension.size(), file_name.end())` with `".wav"` and
appends the extension when they differ; there is no test of the length of the
name.  For a name of four chars or more the range is the tail of the name.  For
a shorter name the range starts before `file_name.begin()`: it then takes in the
chars that lie in memory right before the chars of the name, which are the
argument `memory` (its last char is the one next to the name). -/
def audio_input.wav_file.ctor_named (good : Bool) (memory : List Char) (dev : audio_input)
    (file_name : List Char) : Except exception audio_input.wav_file :=
  let extension := ".wav".data
  let range :=
    (memory ++ file_name).drop ((memory ++ file_name).length - extension.length)
  let file_name := if ¬ (range = extension) then file_name ++ extension else file_name
  if good then Except.ok (audio_input.wav_file.initial dev file_name)
  else
    Except.error (exception.runtime_error
      (String.mk ("Could not open ".data ++ file_name ++ ".".data)))

/-- The member template `wav_file::write`: `size` times, the low byte of `value`
is put into the file and `value` is shifted right by eight bits.  On every type
it is instantiated with (`int`, `unsigned short`, `unsigned long`, `char`) the
bits `value & 0xFF` are `value % 256` and the shift is the division by 256
rounded down. -/
def audio_input.wav_file.write :
    audio_input.wav_file → Int → Nat → audio_input.wav_file
  | w, _, 0 => w
  | w, value, size + 1 =>
    audio_input.wav_file.write
      { w with file := w.file.put (static_cast_char (value % 256)) } (value / 256) size

/-- How far a call of `export_file` has come: it has returned, or the loop over
the store is still running after the number of passes it was given.  Either way
`w` is the object, with the file as written so far. -/
inductive export_progress where
  | returned (w : audio_input.wav_file)
  | looping (w : audio_input.wav_file)
  deriving DecidableEq, Repr

/-- The object, with the file as written so far. -/
def export_progress.w : export_progress → audio_input.wav_file
  | export_progress.returned w => w
  | export_progress.looping w => w

/-- Whether the call has returned. -/
def export_progress.has_returned : export_progress → Bool
  | export_progress.returned _ => true
  | export_progress.looping _ => false

/-- The loop `for (unsigned long i = 0; i < current_device->audio_block.size(); i++)
write(current_device->audio_block[i], 1);` of `export_file`, from index `i` on.
The index is an `unsigned long`, so `i++` wraps at 2^32, while the size it is
compared with is a `size_t` and is not cut.  The first argument bounds the
number of passes: when the condition still holds after that many, the loop is
still running. -/
def audio_input.wav_file.write_samples :
    Nat → Nat → audio_input.wav_file → export_progress
  | 0, i, w =>
    if i < w.current_device.audio_block.length then export_progress.looping w
    else export_progress.returned w
  | passes + 1, i, w =>
    if h : i < w.current_device.audio_block.length then
      audio_input.wav_file.write_samples passes ((i + 1) % 4294967296)
        (w.write (w.current_device.audio_block[i]) 1)
    else export_progress.returned w

/-- The member `wav_file::export_file`; `passes` bounds the passes of its loop
over the store (see `write_samples`).  The positions are held in `unsigned
long`; the call `write(file_length - data_chunk_pos + 8)` takes the default size
`sizeof(unsigned long)`, which is 4. -/
def audio_input.wav_file.export_file (passes : Nat) (w : audio_input.wav_file) :
    export_progress :=
  let w := { w with file := w.file.insert_string "RIFF----WAVEfmt " }
  let w := w.write 16 4
  let w := w.write 1 2
  let w := w.write (Int.ofNat w.channels) 2
  let w := w.write (Int.ofNat w.sample_rate) 4
  let w := w.write (Int.ofNat w.data_transfer_rate) 4
  let w :=
    w.write (Int.tdiv (static_cast_int (Int.ofNat w.channels * Int.ofNat w.pcm_resolution)) 8) 2
  let w := w.write (Int.ofNat w.pcm_resolution) 2
  let data_chunk_pos := static_cast_unsigned_long (Int.ofNat w.file.tellp)
  let w := { w with file := w.file.insert_string "data----" }
  match w.write_samples passes 0 with
  | export_progress.looping w => export_progress.looping w
  | export_progress.returned w =>
    let file_length := static_cast_unsigned_long (Int.ofNat w.file.tellp)
    let w :=
      { w with
        file := w.file.seekp (static_cast_unsigned_long (Int.ofNat data_chunk_pos + 4)) }
    let w :=
      w.write
        (Int.ofNat (static_cast_unsigned_long
          (Int.ofNat file_length - Int.ofNat data_chunk_pos + 8))) 4
    let w := { w with file := w.file.seekp 4 }
    export_progress.returned
      (w.write (Int.ofNat (static_cast_unsigned_long (Int.ofNat file_length - 8))) 4)

/-- What a call of `export_wav` leaves: the session, the exception if one was
thrown, and how far `export_file` came if the export got that far. -/
structure exported where
  dev : audio_input
  error : Option exception
  file : Option export_progress
  deriving DecidableEq, Repr

/-- The member `audio_input::export_wav()`: `stop()`, then a `wav_file` on
`tmp.wav` and its `export_file`. -/
def audio_input.export_wav (err : MMRESULT) (good : Bool) (passes : Nat)
    (dev : audio_input) : exported :=
  match audio_input.stop err dev with
  | outcome.thrown e dev => { dev := dev, error := some e, file := none }
  | outcome.returned dev =>
    match audio_input.wav_file.ctor good dev with
    | Except.error e => { dev := dev, error := some e, file := none }
    | Except.ok w => { dev := dev, error := none, file := some (w.export_file passes) }

/-- The member `audio_input::export_wav(std::string)`; `memory` are the chars in
memory right before the chars of `file_name` (see the constructor). -/
def audio_input.export_wav_named (err : MMRESULT) (good : Bool) (passes : Nat)
    (memory : List Char) (file_name : List Char) (dev : audio_input) : exported :=
  match audio_input.stop err dev with
  | outcome.thrown e dev => { dev := dev, error := some e, file := none }
  | outcome.returned dev =>
    match audio_input.wav_file.ctor_named good memory dev file_name with
    | Except.error e => { dev := dev, error := some e, file := none }
    | Except.ok w => { dev := dev, error := none, file := some (w.export_file passes) }

/-! ## Reading a WAV header -/

/-- The unsigned value of the little-endian field of `len` bytes at offset `off`. -/
def le_field (bytes : List sample) (off len : Nat) : Int :=
  ((bytes.drop off).take len).foldr (fun c acc => c % 256 + 256 * acc) 0

/-- How far `export_file` comes on a freshly opened file for the session `dev`. -/
def audio_input.wav_export (passes : Nat) (dev : audio_input) : export_progress :=
  (audio_input.wav_file.initial dev "tmp.wav".data).export_file passes

/-- The bytes `export_file` has written into a freshly opened file for the
session `dev`, when it has returned or after `passes` passes of its loop. -/
def audio_input.wav_bytes (passes : Nat) (dev : audio_input) : List sample :=
  (dev.wav_export passes).w.file.bytes

/-! ## Auxiliary definitions for the proofs -/

/-- The bytes one call `write(value, size)` puts, low byte first. -/
def le_bytes : Int → Nat → List sample
  | _, 0 => []
  | value, size + 1 => static_cast_char (value % 256) :: le_bytes (value / 256) size

/-- Several `put`s in a row. -/
def ofstream.puts (f : ofstream) (l : List sample) : ofstream := l.foldl ofstream.put f

/-- The 44 header bytes `export_file` leaves in the file for a store of `n` bytes. -/
def wav_header (w : audio_input.wav_file) (n : Nat) : List sample :=
  [82, 73, 70, 70]
    ++ le_bytes (Int.ofNat (static_cast_unsigned_long
        (Int.ofNat (static_cast_unsigned_long (Int.ofNat (44 + n))) - 8))) 4
    ++ [87, 65, 86, 69, 102, 109, 116, 32]
    ++ le_bytes 16 4 ++ le_bytes 1 2 ++ le_bytes (Int.ofNat w.channels) 2
    ++ le_bytes (Int.ofNat w.sample_rate) 4 ++ le_bytes (Int.ofNat w.data_transfer_rate) 4
    ++ le_bytes
        (Int.tdiv (static_cast_int (Int.ofNat w.channels * Int.ofNat w.pcm_resolution)) 8) 2
    ++ le_bytes (Int.ofNat w.pcm_resolution) 2
    ++ [100, 97, 116, 97]
    ++ le_bytes (Int.ofNat (static_cast_unsigned_long
        (Int.ofNat (static_cast_unsigned_long (Int.ofNat (44 + n))) - Int.ofNat 36 + 8))) 4

/-- The twenty bytes `export_file` writes from offset 16 on: the size of the
`fmt ` chunk and its six fields. -/
def wav_fmt (w : audio_input.wav_file) : List sample :=
  le_bytes 16 4 ++ le_bytes 1 2 ++ le_bytes (Int.ofNat w.channels) 2
    ++ le_bytes (Int.ofNat w.sample_rate) 4 ++ le_bytes (Int.ofNat w.data_transfer_rate) 4
    ++ le_bytes
        (Int.tdiv (static_cast_int (Int.ofNat w.channels * Int.ofNat w.pcm_resolution)) 8) 2
    ++ le_bytes (Int.ofNat w.pcm_resolution) 2

/-- The session after one pass of the worker loop over the completions `c1`
(buffer 1) and `c2` (buffer 2). -/
def audio_input.pass (c1 c2 : completion) (dev : audio_input) : audio_input :=
  let dev := audio_input.complete1 c1 dev
  let dev :=
    { dev with
      audio_block := dev.audio_block ++ dev.buffer1.take dev.buffer1_params.dwBytesRecorded }
  let dev := audio_input.resubmit1 dev
  let dev := audio_input.complete2 c2 dev
  let dev :=
    { dev with
      audio_block := dev.audio_block ++ dev.buffer2.take dev.buffer2_params.dwBytesRecorded }
  audio_input.resubmit2 dev

/-! ## Concrete sessions and inputs -/

/-- A driver that accepts the six calls of the constructor. -/
def accepting : open_results :=
  { waveInGetDevCaps := MMSYSERR_NOERROR, waveInOpen := MMSYSERR_NOERROR,
    waveInPrepareHeader1 := MMSYSERR_NOERROR, waveInPrepareHeader2 := MMSYSERR_NOERROR,
    waveInAddBuffer1 := MMSYSERR_NOERROR, waveInAddBuffer2 := MMSYSERR_NOERROR }

/-- The session `audio_input dev;` of `main`: the default arguments (44100 Hz,
16 bit, one channel), every driver call accepted. -/
def main_dev : audio_input :=
  { audio_input.initial 44100 16 1 with
    driver_calls :=
      [driver_call.waveInGetDevCaps, driver_call.waveInOpen,
       driver_call.waveInPrepareHeader 1, driver_call.waveInPrepareHeader 2,
       driver_call.waveInAddBuffer 1, driver_call.waveInAddBuffer 2] }

/-- The session of `main` while it records, with two chars in the store. -/
def recording_dev : audio_input :=
  { main_dev with
    current_state := device_state.recording
    record_thread := true
    audio_block := [1, 2]
    driver_calls := main_dev.driver_calls ++ [driver_call.waveInStart] }

/-- The session of `main`, idle, with five chars in the store. -/
def recorded_dev : audio_input :=
  { main_dev with audio_block := [1, -1, 127, -128, 5] }

/-- The session of `main`, idle, with a store of 2^32 zero chars. -/
def huge_dev : audio_input :=
  { main_dev with audio_block := List.replicate 4294967296 0 }

/-- A completion of which one char counts. -/
def one_seven : completion := { data := List.replicate 4096 7, dwBytesRecorded := 1 }

/-- A completion of which two chars count. -/
def two_sevens : completion := { data := List.replicate 4096 7, dwBytesRecorded := 2 }

/-- A completion of which three chars count. -/
def three_eights : completion := { data := List.replicate 4096 8, dwBytesRecorded := 3 }

/-! ## The file stream -/

theorem ofstream.puts_cons (f : ofstream) (c : sample) (l : List sample) :
    f.puts (c :: l) = (f.put c).puts l := rfl

theorem ofstream.puts_within (l : List sample) :
    ∀ f : ofstream, f.pos ≤ f.bytes.length →
      f.puts l = { bytes := f.bytes.take f.pos ++ l ++ f.bytes.drop (f.pos + l.length),
                   pos := f.pos + l.length } := by
  induction l with
  | nil =>
    intro f _
    cases f
    simp [ofstream.puts]
  | cons c l ih =>
    intro f hf
    rw [ofstream.puts_cons, ih]
    · have h0 : f.pos - f.bytes.length = 0 := by omega
      have h1 : min f.pos f.bytes.length = f.pos := by omega
      simp only [ofstream.put, h0, List.replicate_zero, List.append_nil, List.length_cons]
      congr 1
      · rw [List.take_append_eq_append_take, List.drop_append_eq_append_drop]
        simp [h1, List.take_take]
        have h2 : f.pos + 1 + l.length - f.pos = l.length + 1 := by omega
        rw [h2, List.drop_succ_cons, List.drop_drop, List.drop_eq_nil_of_le]
        · simp only [List.nil_append]
          congr 1
          omega
        · simp only [List.length_take]
          omega
      · omega
    · simp only [ofstream.put, List.length_append, List.length_take, List.length_replicate,
        List.length_cons, List.length_drop]
      omega

theorem ofstream.insert_string_eq (f : ofstream) (s : String) :
    f.insert_string s = f.puts (s.data.map (fun ch => Int.ofNat ch.toNat)) := by
  simp [ofstream.insert_string, ofstream.puts, List.foldl_map]

theorem ofstream.puts_start (l : List sample) :
    ({ bytes := [], pos := 0 } : ofstream).puts l = { bytes := l, pos := l.length } := by
  rw [ofstream.puts_within l _ (Nat.le_refl _)]
  simp

theorem ofstream.puts_end (b l : List sample) :
    ({ bytes := b, pos := b.length } : ofstream).puts l
      = { bytes := b ++ l, pos := (b ++ l).length } := by
  rw [ofstream.puts_within l _ (Nat.le_refl _)]
  simp

/-- Overwriting four bytes at offset 40 and then four bytes at offset 4 of a file
of at least 44 bytes changes those eight bytes and nothing else. -/
theorem ofstream.patch_sizes (P X Y : List sample) (hP : 44 ≤ P.length)
    (hX : X.length = 4) (hY : Y.length = 4) :
    (({ bytes := (({ bytes := P, pos := 40 } : ofstream).puts X).bytes, pos := 4 } :
        ofstream).puts Y).bytes
      = P.take 4 ++ Y ++ (P.drop 8).take 32 ++ X ++ P.drop 44 := by
  rw [ofstream.puts_within X _ (by simp only; omega)]
  rw [ofstream.puts_within Y _ (by simp; omega)]
  simp only [hX, hY]
  have t1 : List.take 4 (List.take 40 P ++ X ++ List.drop (40 + 4) P) = List.take 4 P := by
    rw [List.append_assoc, List.take_append_of_le_length (by simp; omega), List.take_take]
    simp
  have t2 : List.drop (4 + 4) (List.take 40 P ++ X ++ List.drop (40 + 4) P)
      = List.take 32 (List.drop 8 P) ++ X ++ List.drop 44 P := by
    rw [List.append_assoc, List.drop_append_of_le_length (by simp; omega), List.drop_take]
    simp
  rw [t1, t2]
  simp


/-! ## The WAV writer -/

theorem le_bytes_length (size : Nat) : ∀ value : Int, (le_bytes value size).length = size := by
  induction size with
  | zero => intro _; rfl
  | succ n ih => intro value; simp [le_bytes, ih]

theorem wav_file_write_eq (size : Nat) :
    ∀ (w : audio_input.wav_file) (value : Int),
      w.write value size = { w with file := w.file.puts (le_bytes value size) } := by
  induction size with
  | zero => intro w value; rfl
  | succ n ih =>
    intro w value
    rw [audio_input.wav_file.write, ih]
    rfl

/-- Writing a `char` with `write(c, 1)` puts that `char`: `c & 0xFF` on the
promoted value and the conversion back to `char` cancel. -/
theorem static_cast_char_of_char (c : Int) (h : is_char c) :
    static_cast_char (c % 256) = c := by
  unfold is_char at h
  unfold static_cast_char
  omega

theorem map_static_cast_char (block : List sample) (h : ∀ c ∈ block, is_char c) :
    block.map (fun c => static_cast_char (c % 256)) = block := by
  induction block with
  | nil => rfl
  | cons c block ih =>
    simp only [List.map_cons]
    rw [static_cast_char_of_char c (h c (List.mem_cons_self _ _)),
      ih (fun x hx => h x (List.mem_cons_of_mem _ hx))]

theorem wav_file_write_char (w : audio_input.wav_file) (b : List sample) (c : Int)
    (hw : w.file = { bytes := b, pos := b.length }) :
    w.write c 1
      = { w with file := { bytes := b ++ [static_cast_char (c % 256)],
                           pos := (b ++ [static_cast_char (c % 256)]).length } } := by
  rw [wav_file_write_eq, hw, ofstream.puts_end]
  rfl

/-- The loop over a store below 2^32 chars returns once it has made a pass for
every char that is left, with those chars appended to the file in order. -/
theorem write_samples_returns (passes : Nat) :
    ∀ (i : Nat) (w : audio_input.wav_file) (b : List sample),
      w.file = { bytes := b, pos := b.length } →
      i ≤ w.current_device.audio_block.length →
      w.current_device.audio_block.length < 4294967296 →
      w.current_device.audio_block.length - i ≤ passes →
      w.write_samples passes i
        = export_progress.returned
            { w with
              file :=
                { bytes := b ++ (w.current_device.audio_block.drop i).map
                    (fun c => static_cast_char (c % 256)),
                  pos := (b ++ (w.current_device.audio_block.drop i).map
                    (fun c => static_cast_char (c % 256))).length } } := by
  induction passes with
  | zero =>
    intro i w b hw hi _ hp
    have hN : i = w.current_device.audio_block.length := by omega
    rw [audio_input.wav_file.write_samples, if_neg (by omega)]
    rw [hN, List.drop_length]
    cases w
    simp only at hw
    simp [hw]
  | succ passes ih =>
    intro i w b hw hi hN hp
    by_cases h : i < w.current_device.audio_block.length
    · rw [audio_input.wav_file.write_samples, dif_pos h]
      have hmod : (i + 1) % 4294967296 = i + 1 := Nat.mod_eq_of_lt (by omega)
      rw [hmod, wav_file_write_char w b _ hw]
      have key := ih (i + 1)
        { w with file := { bytes := b ++ [static_cast_char (w.current_device.audio_block[i] % 256)],
                           pos := (b ++ [static_cast_char
                              (w.current_device.audio_block[i] % 256)]).length } }
        (b ++ [static_cast_char (w.current_device.audio_block[i] % 256)]) rfl
        (by show i + 1 ≤ w.current_device.audio_block.length; omega) hN
        (by show w.current_device.audio_block.length - (i + 1) ≤ passes; omega)
      rw [key]
      simp only [List.drop_eq_getElem_cons h, List.map_cons, List.append_assoc,
        List.singleton_append]
    · have hN : i = w.current_device.audio_block.length := by omega
      rw [audio_input.wav_file.write_samples, dif_neg h]
      rw [hN, List.drop_length]
      cases w
      simp only at hw
      simp [hw]

/-- The loop over a store of 2^32 chars or more never returns: the index stays
below 2^32 and so below the size. -/
theorem write_samples_loops (passes : Nat) :
    ∀ (i : Nat) (w : audio_input.wav_file),
      4294967296 ≤ w.current_device.audio_block.length → i < 4294967296 →
      ∃ w', w.write_samples passes i = export_progress.looping w' := by
  induction passes with
  | zero =>
    intro i w hN hi
    exact ⟨w, by rw [audio_input.wav_file.write_samples, if_pos (by omega)]⟩
  | succ passes ih =>
    intro i w hN hi
    have h : i < w.current_device.audio_block.length := by omega
    rw [audio_input.wav_file.write_samples, dif_pos h]
    refine ih _ _ ?_ (Nat.mod_lt _ (by decide))
    rw [wav_file_write_eq]
    exact hN

/-- Whatever the store, the loop only appends to a file whose put position is at
its end, and leaves the other members alone. -/
theorem write_samples_appends (passes : Nat) :
    ∀ (i : Nat) (w : audio_input.wav_file) (b : List sample),
      w.file = { bytes := b, pos := b.length } →
      ∃ X, (w.write_samples passes i).w
        = { w with file := { bytes := b ++ X, pos := (b ++ X).length } } := by
  induction passes with
  | zero =>
    intro i w b hw
    refine ⟨[], ?_⟩
    rw [audio_input.wav_file.write_samples]
    cases w
    simp only at hw
    split <;> simp [export_progress.w, hw]
  | succ passes ih =>
    intro i w b hw
    by_cases h : i < w.current_device.audio_block.length
    · rw [audio_input.wav_file.write_samples, dif_pos h, wav_file_write_char w b _ hw]
      obtain ⟨X, hX⟩ := ih ((i + 1) % 4294967296)
        { w with file := { bytes := b ++ [static_cast_char (w.current_device.audio_block[i] % 256)],
                           pos := (b ++ [static_cast_char
                              (w.current_device.audio_block[i] % 256)]).length } }
        (b ++ [static_cast_char (w.current_device.audio_block[i] % 256)]) rfl
      refine ⟨static_cast_char (w.current_device.audio_block[i] % 256) :: X, ?_⟩
      rw [hX]
      simp only [List.append_assoc, List.singleton_append]
    · refine ⟨[], ?_⟩
      rw [audio_input.wav_file.write_samples, dif_neg h]
      cases w
      simp only at hw
      simp [export_progress.w, hw]

/-- When the loop returns, the file `export_file` leaves is the 44 header bytes
followed by one byte for each char of the store. -/
theorem export_file_returns (passes : Nat) (w : audio_input.wav_file)
    (hw : w.file = { bytes := [], pos := 0 })
    (hN : w.current_device.audio_block.length < 4294967296)
    (hp : w.current_device.audio_block.length ≤ passes) :
    ∃ w', w.export_file passes = export_progress.returned w' ∧
      w'.file.bytes
        = wav_header w w.current_device.audio_block.length
            ++ w.current_device.audio_block.map (fun c => static_cast_char (c % 256)) := by
  obtain ⟨file, name, dev, ch, pr, sr, rate⟩ := w
  simp only at hw hN hp
  subst hw
  unfold audio_input.wav_file.export_file
  simp only [wav_file_write_eq, ofstream.insert_string_eq, ofstream.puts_start,
    ofstream.puts_end, ofstream.tellp, ofstream.seekp]
  rw [write_samples_returns passes 0 _ _ rfl (Nat.zero_le _) hN (by simpa using hp)]
  simp only [List.drop_zero]
  refine ⟨_, rfl, ?_⟩
  simp only [wav_file_write_eq, ofstream.seekp]
  simp only [List.length_append, List.length_map, le_bytes_length, List.length_cons,
    List.length_nil, Nat.reduceAdd]
  have h40 : static_cast_unsigned_long
      (Int.ofNat (static_cast_unsigned_long (Int.ofNat 36)) + 4) = 40 := by decide
  have h36 : static_cast_unsigned_long (Int.ofNat 36) = 36 := by decide
  rw [h40, h36]
  rw [ofstream.patch_sizes _ _ _ (by simp [le_bytes_length]; omega) (le_bytes_length _ _)
    (le_bytes_length _ _)]
  simp [wav_header, le_bytes]

theorem write_samples_never_returns (passes i : Nat) (w w' : audio_input.wav_file)
    (hN : 4294967296 ≤ w.current_device.audio_block.length) (hi : i < 4294967296) :
    w.write_samples passes i ≠ export_progress.returned w' := by
  obtain ⟨w'', h⟩ := write_samples_loops passes i w hN hi
  rw [h]
  intro hc
  cases hc

theorem write_samples_appends_of_eq (passes i : Nat) (w : audio_input.wav_file)
    (b : List sample) (p : export_progress)
    (hw : w.file = { bytes := b, pos := b.length })
    (hp : w.write_samples passes i = p) :
    ∃ X, p.w = { w with file := { bytes := b ++ X, pos := (b ++ X).length } } := by
  subst hp
  exact write_samples_appends passes i w b hw

/-- For a store of 2^32 chars or more `export_file` does not return, however
many passes its loop is given. -/
theorem export_file_loops (passes : Nat) (w : audio_input.wav_file)
    (hN : 4294967296 ≤ w.current_device.audio_block.length) :
    ∃ w', w.export_file passes = export_progress.looping w' := by
  unfold audio_input.wav_file.export_file
  simp only [wav_file_write_eq]
  split
  · exact ⟨_, rfl⟩
  · rename_i heq
    exact absurd heq (write_samples_never_returns _ _ _ _ hN (by decide))

/-- Whatever the store and however far the loop has come, the twenty bytes from
offset 16 on are the `fmt ` chunk size and fields written before the loop. -/
theorem export_file_fmt (passes : Nat) (w : audio_input.wav_file)
    (hw : w.file = { bytes := [], pos := 0 }) :
    ((w.export_file passes).w.file.bytes.drop 16).take 20 = wav_fmt w := by
  obtain ⟨file, name, dev, ch, pr, sr, rate⟩ := w
  simp only at hw
  subst hw
  unfold audio_input.wav_file.export_file
  simp only [wav_file_write_eq, ofstream.insert_string_eq, ofstream.puts_start,
    ofstream.puts_end, ofstream.tellp, ofstream.seekp]
  split
  · rename_i w' heq
    obtain ⟨X, hX⟩ := write_samples_appends_of_eq _ _ _ _ _ rfl heq
    simp only [export_progress.w] at hX ⊢
    subst hX
    simp [wav_fmt, le_bytes]
  · rename_i w' heq
    obtain ⟨X, hX⟩ := write_samples_appends_of_eq _ _ _ _ _ rfl heq
    simp only [export_progress.w] at hX ⊢
    subst hX
    simp only [List.length_append, List.length_map, le_bytes_length, List.length_cons,
      List.length_nil, Nat.reduceAdd]
    have h40 : static_cast_unsigned_long
        (Int.ofNat (static_cast_unsigned_long (Int.ofNat 36)) + 4) = 40 := by decide
    rw [h40]
    rw [ofstream.patch_sizes _ _ _ (by simp [le_bytes_length]; omega) (le_bytes_length _ _)
      (le_bytes_length _ _)]
    simp [wav_fmt, le_bytes]

theorem static_cast_unsigned_long_small (n : Nat) (h : n < 4294967296) :
    static_cast_unsigned_long (Int.ofNat n) = n := by
  unfold static_cast_unsigned_long
  have : (Int.ofNat n) % 4294967296 = Int.ofNat n :=
    Int.emod_eq_of_lt (by simp) (by simp; omega)
  rw [this]
  simp

theorem wav_header_length (w : audio_input.wav_file) (n : Nat) :
    (wav_header w n).length = 44 := by
  simp [wav_header, le_bytes_length]

/-- On a session whose store is below 2^32 chars, `export_file` returns once its
loop has had a pass for every char. -/
theorem wav_export_returns (passes : Nat) (dev : audio_input)
    (hN : dev.audio_block.length < 4294967296) (hp : dev.audio_block.length ≤ passes) :
    (dev.wav_export passes).has_returned = true ∧
    dev.wav_bytes passes
      = wav_header (audio_input.wav_file.initial dev "tmp.wav".data) dev.audio_block.length
          ++ dev.audio_block.map (fun c => static_cast_char (c % 256)) := by
  obtain ⟨w', hret, hbytes⟩ :=
    export_file_returns passes (audio_input.wav_file.initial dev "tmp.wav".data) rfl hN hp
  unfold audio_input.wav_bytes audio_input.wav_export
  rw [hret]
  exact ⟨rfl, hbytes⟩

theorem le_field_riff (w : audio_input.wav_file) (n : Nat) (D : List sample) (v : Nat)
    (hv : static_cast_unsigned_long
        (Int.ofNat (static_cast_unsigned_long (Int.ofNat (44 + n))) - 8) = v)
    (hlt : v < 4294967296) :
    le_field (wav_header w n ++ D) 4 4 = Int.ofNat v := by
  simp only [wav_header, hv]
  simp [le_field, le_bytes, static_cast_char]
  omega

/-- A field that lies between offset 16 and offset 36 is read from the twenty
bytes that start at offset 16. -/
theorem le_field_window (bytes : List sample) (off len : Nat) (h1 : 16 ≤ off)
    (h2 : off + len ≤ 36) :
    le_field bytes off len = le_field ((bytes.drop 16).take 20) (off - 16) len := by
  unfold le_field
  congr 1
  rw [List.drop_take, List.drop_drop, List.take_take]
  have e1 : 16 + (off - 16) = off := by omega
  have e2 : min len (20 - (off - 16)) = len := by omega
  rw [e1, e2]

theorem le_field_fmt (w : audio_input.wav_file)
    (hc : w.channels < 65536) (hs : w.sample_rate < 4294967296)
    (hp : w.pcm_resolution < 65536) :
    le_field (wav_fmt w) 4 2 = 1 ∧
    le_field (wav_fmt w) 6 2 = Int.ofNat w.channels ∧
    le_field (wav_fmt w) 8 4 = Int.ofNat w.sample_rate ∧
    le_field (wav_fmt w) 18 2 = Int.ofNat w.pcm_resolution := by
  refine ⟨?_, ?_, ?_, ?_⟩
  · simp [wav_fmt, le_field, le_bytes, static_cast_char]
  · simp [wav_fmt, le_field, le_bytes, static_cast_char]
    omega
  · simp [wav_fmt, le_field, le_bytes, static_cast_char]
    omega
  · simp [wav_fmt, le_field, le_bytes, static_cast_char]
    omega

/-! ## The constructor -/

theorem handle_error_returns (err : MMRESULT) (h : err ∉ audio_input.error_codes) :
    audio_input.handle_error err = Except.ok () := by
  simp [audio_input.error_codes, MMSYSERR_INVALHANDLE, MMSYSERR_NODRIVER, MMSYSERR_NOMEM,
    WAVERR_UNPREPARED, MMSYSERR_ALLOCATED, MMSYSERR_BADDEVICEID, WAVERR_BADFORMAT] at h
  simp [audio_input.handle_error, h, MMSYSERR_INVALHANDLE, MMSYSERR_NODRIVER, MMSYSERR_NOMEM,
    WAVERR_UNPREPARED, MMSYSERR_ALLOCATED, MMSYSERR_BADDEVICEID, WAVERR_BADFORMAT]

theorem handle_error_throws (err : MMRESULT) (h : err ∈ audio_input.error_codes) :
    ∃ e, audio_input.handle_error err = Except.error e := by
  simp [audio_input.error_codes, MMSYSERR_INVALHANDLE, MMSYSERR_NODRIVER, MMSYSERR_NOMEM,
    WAVERR_UNPREPARED, MMSYSERR_ALLOCATED, MMSYSERR_BADDEVICEID, WAVERR_BADFORMAT] at h
  rcases h with h | h | h | h | h | h | h <;> subst h <;> exact ⟨_, rfl⟩

/-- A session the constructor returns has the format of the initialiser list. -/
theorem ctor_format_params (drv : open_results) (device_id sample_rate bit_depth channels : Nat)
    (dev : audio_input)
    (h : audio_input.ctor drv device_id sample_rate bit_depth channels = Except.ok dev) :
    dev.format_params = (audio_input.initial sample_rate bit_depth channels).format_params := by
  unfold audio_input.ctor at h
  simp only [bind, Except.bind, pure, Except.pure] at h
  repeat' split at h
  all_goals cases h <;> rfl

theorem ctor_main :
    audio_input.ctor accepting WAVE_MAPPER 44100 16 1 = Except.ok main_dev := rfl

/-! ## Claims about the exported file -/

set_option maxRecDepth 100000 in
/-- C2 (the code departs from the claim).  After `audio_input dev;` with the
defaults and an accepting driver, `export_wav()` with nothing recorded returns
with a file of 44 bytes whose `data` size field, bytes 40..43, reads 16, where
the claim says 0: `export_file` writes `file_length - data_chunk_pos + 8`, which
is the size of the store plus 16. -/
theorem export_after_open_data_size :
    audio_input.ctor accepting WAVE_MAPPER 44100 16 1 = Except.ok main_dev ∧
    main_dev.audio_block = [] ∧
    (audio_input.export_wav MMSYSERR_NOERROR true 0 main_dev).file.map
      (fun p => (p.has_returned, p.w.file.bytes.length, le_field p.w.file.bytes 40 4))
        = some (true, 44, 16) := by
  refine ⟨rfl, rfl, ?_⟩
  decide

set_option maxRecDepth 100000 in
/-- C3 (the code departs from the claim).  For the defaults 44100 Hz, 16 bit and
one channel the constructor stores the block alignment 2 and the byte rate 22664,
which is 88200 cut to 16 bits by `static_cast<unsigned short>`, where the claim
says 88200; `export_file` writes the same 22664 into the byte-rate field, bytes
28..31 of the header. -/
theorem ctor_default_byte_rate :
    audio_input.ctor accepting WAVE_MAPPER 44100 16 1 = Except.ok main_dev ∧
    main_dev.format_params.nBlockAlign = 2 ∧
    main_dev.format_params.nAvgBytesPerSec = 22664 ∧
    (main_dev.wav_export 0).has_returned = true ∧
    le_field (main_dev.wav_bytes 0) 28 4 = 22664 := by
  refine ⟨rfl, ?_, ?_, ?_, ?_⟩ <;> decide

/-- C4.  For every session whose store has `N` bytes with `44 + N < 2^32`,
`export_file` returns once its loop has had a pass for every byte, and the
little-endian RIFF chunk-size field it has written at bytes 4..7 equals the
length of the whole output minus 8. -/
theorem export_riff_chunk_size (passes : Nat) (dev : audio_input)
    (h : 44 + dev.audio_block.length < 4294967296)
    (hp : dev.audio_block.length ≤ passes) :
    (dev.wav_export passes).has_returned = true ∧
    le_field (dev.wav_bytes passes) 4 4 = Int.ofNat (dev.wav_bytes passes).length - 8 := by
  obtain ⟨hret, hbytes⟩ := wav_export_returns passes dev (by omega) hp
  refine ⟨hret, ?_⟩
  have h1 : static_cast_unsigned_long (Int.ofNat (44 + dev.audio_block.length))
      = 44 + dev.audio_block.length := static_cast_unsigned_long_small _ h
  have h2 : static_cast_unsigned_long
        (Int.ofNat (static_cast_unsigned_long (Int.ofNat (44 + dev.audio_block.length))) - 8)
      = 36 + dev.audio_block.length := by
    rw [h1]
    have e : Int.ofNat (44 + dev.audio_block.length) - 8
        = Int.ofNat (36 + dev.audio_block.length) := by
      simp only [Int.ofNat_eq_coe, Nat.cast_add, Nat.cast_ofNat]
      omega
    rw [e]
    exact static_cast_unsigned_long_small _ (by omega)
  rw [hbytes, le_field_riff _ _ _ _ h2 (by omega), List.length_append, wav_header_length,
    List.length_map]
  simp only [Int.ofNat_eq_coe, Nat.cast_add, Nat.cast_ofNat]
  omega

/-- C4, at the session of `main` with five chars recorded: the field reads 41 and
the output has 49 bytes. -/
theorem export_riff_chunk_size_witness :
    (44 + recorded_dev.audio_block.length < 4294967296 ∧
      recorded_dev.audio_block.length ≤ 5) ∧
    (recorded_dev.wav_export 5).has_returned = true ∧
    le_field (recorded_dev.wav_bytes 5) 4 4
      = Int.ofNat (recorded_dev.wav_bytes 5).length - 8 :=
  ⟨⟨by decide, by decide⟩, export_riff_chunk_size 5 recorded_dev (by decide) (by decide)⟩

/-- C5.  For every sample rate, bit depth and channel count in the range of
their parameter types with which the constructor opens a session, and every
content of the store, the header that `export_file` writes carries the audio
format 1 in the two bytes at offset 20, the channel count in the two bytes at
offset 22, the sample rate in the four bytes at offset 24 and the bit depth in
the two bytes at offset 34, all little-endian.  They are in the file whether
`export_file` has returned or its loop over the store is still running. -/
theorem export_format_fields (drv : open_results)
    (device_id sample_rate bit_depth channels : Nat) (dev : audio_input)
    (block : List sample) (passes : Nat)
    (hs : sample_rate < 4294967296) (hb : bit_depth < 65536) (hc : channels < 65536)
    (hopen : audio_input.ctor drv device_id sample_rate bit_depth channels = Except.ok dev) :
    le_field (({ dev with audio_block := block } : audio_input).wav_bytes passes) 20 2 = 1 ∧
    le_field (({ dev with audio_block := block } : audio_input).wav_bytes passes) 22 2
      = Int.ofNat channels ∧
    le_field (({ dev with audio_block := block } : audio_input).wav_bytes passes) 24 4
      = Int.ofNat sample_rate ∧
    le_field (({ dev with audio_block := block } : audio_input).wav_bytes passes) 34 2
      = Int.ofNat bit_depth := by
  have hf := ctor_format_params drv device_id sample_rate bit_depth channels dev hopen
  have hch : (audio_input.wav_file.initial ({ dev with audio_block := block } : audio_input)
      "tmp.wav".data).channels = channels := by
    simp [audio_input.wav_file.initial, hf, audio_input.initial]
  have hsr : (audio_input.wav_file.initial ({ dev with audio_block := block } : audio_input)
      "tmp.wav".data).sample_rate = sample_rate := by
    simp [audio_input.wav_file.initial, hf, audio_input.initial]
  have hpr : (audio_input.wav_file.initial ({ dev with audio_block := block } : audio_input)
      "tmp.wav".data).pcm_resolution = bit_depth := by
    simp [audio_input.wav_file.initial, hf, audio_input.initial]
  have key := le_field_fmt
    (audio_input.wav_file.initial ({ dev with audio_block := block } : audio_input)
      "tmp.wav".data)
    (by rw [hch]; exact hc) (by rw [hsr]; exact hs) (by rw [hpr]; exact hb)
  rw [hch, hsr, hpr] at key
  have hfmt := export_file_fmt passes
    (audio_input.wav_file.initial ({ dev with audio_block := block } : audio_input)
      "tmp.wav".data) rfl
  unfold audio_input.wav_bytes audio_input.wav_export
  rw [le_field_window _ 20 2 (by decide) (by decide),
    le_field_window _ 22 2 (by decide) (by decide),
    le_field_window _ 24 4 (by decide) (by decide),
    le_field_window _ 34 2 (by decide) (by decide), hfmt]
  exact key

/-- C5, at the defaults of `main` (44100 Hz, 16 bit, one channel) with five
chars in the store. -/
theorem export_format_fields_witness :
    (44100 < 4294967296 ∧ 16 < 65536 ∧ 1 < 65536 ∧
      audio_input.ctor accepting WAVE_MAPPER 44100 16 1 = Except.ok main_dev) ∧
    le_field (recorded_dev.wav_bytes 5) 20 2 = 1 ∧
    le_field (recorded_dev.wav_bytes 5) 22 2 = Int.ofNat 1 ∧
    le_field (recorded_dev.wav_bytes 5) 24 4 = Int.ofNat 44100 ∧
    le_field (recorded_dev.wav_bytes 5) 34 2 = Int.ofNat 16 :=
  ⟨⟨by decide, by decide, by decide, rfl⟩,
    export_format_fields accepting WAVE_MAPPER 44100 16 1 main_dev [1, -1, 127, -128, 5] 5
      (by decide) (by decide) (by decide) rfl⟩

/-- C6 (amended).  For every session, whatever its format, whose store holds
fewer than 2^32 chars: `export_file` returns once its loop has had a pass for
every char, the byte stream it has produced is exactly 44 bytes longer than the
store, and from offset 44 on it is the store itself, char for char and in
order. -/
theorem export_data_verbatim (passes : Nat) (dev : audio_input)
    (hN : dev.audio_block.length < 4294967296)
    (hp : dev.audio_block.length ≤ passes)
    (h : ∀ c ∈ dev.audio_block, is_char c) :
    (dev.wav_export passes).has_returned = true ∧
    (dev.wav_bytes passes).length = 44 + dev.audio_block.length ∧
    (dev.wav_bytes passes).drop 44 = dev.audio_block := by
  obtain ⟨hret, hbytes⟩ := wav_export_returns passes dev hN hp
  refine ⟨hret, ?_, ?_⟩
  · rw [hbytes, List.length_append, wav_header_length, List.length_map]
  · rw [hbytes, map_static_cast_char _ h,
      List.drop_append_of_le_length (by rw [wav_header_length])]
    rw [List.drop_eq_nil_of_le (by rw [wav_header_length])]
    rfl

/-- C6 (amended), at the session of `main` with the five chars 1, -1, 127, -128,
5 in the store, the two extreme values of a `char` among them. -/
theorem export_data_verbatim_witness :
    (recorded_dev.audio_block.length < 4294967296 ∧
      recorded_dev.audio_block.length ≤ 5 ∧
      ∀ c ∈ recorded_dev.audio_block, is_char c) ∧
    (recorded_dev.wav_export 5).has_returned = true ∧
    (recorded_dev.wav_bytes 5).length = 44 + recorded_dev.audio_block.length ∧
    (recorded_dev.wav_bytes 5).drop 44 = recorded_dev.audio_block :=
  ⟨⟨by decide, by decide, by decide⟩,
    export_data_verbatim 5 recorded_dev (by decide) (by decide) (by decide)⟩

/-- C6 as stated fails for a store of 2^32 chars.  The index of the loop in
`export_file` is an `unsigned long`: it wraps to 0 before it can reach the size
of the store, the condition of the loop never fails, and `export_file` does not
return, however many passes the loop is given; no byte stream of `44 + N` bytes
is produced. -/
theorem export_huge_store_never_returns :
    huge_dev.audio_block.length = 4294967296 ∧
    (∀ c ∈ huge_dev.audio_block, is_char c) ∧
    ¬ ∃ passes, (huge_dev.wav_export passes).has_returned = true := by
  have hlen : huge_dev.audio_block.length = 4294967296 :=
    List.length_replicate 4294967296 (0 : Int)
  refine ⟨hlen, ?_, ?_⟩
  · intro c hc
    have hc' : c ∈ List.replicate 4294967296 (0 : Int) := hc
    rw [(List.mem_replicate.mp hc').2]
    decide
  · rintro ⟨passes, hret⟩
    obtain ⟨w', hloop⟩ :=
      export_file_loops passes (audio_input.wav_file.initial huge_dev "tmp.wav".data)
        (Nat.le_of_eq hlen.symm)
    unfold audio_input.wav_export at hret
    rw [hloop] at hret
    cases hret

/-! ## Claims about the lifecycle operations -/

/-- C7 (amended).  For every session, idle or recording, and every content of
the store: when the result the driver returns for the stream reset is none of
the seven codes `handle_error` turns into an exception, `reset()` returns with
an empty store and the idle state; when it is one of the seven, `reset()` throws
and leaves the store and the state as they were. -/
theorem reset_clears_unless_driver_error (err : MMRESULT) (dev : audio_input) :
    (err ∉ audio_input.error_codes →
      ∃ dev', audio_input.reset err dev = outcome.returned dev' ∧
        dev'.audio_block = [] ∧ dev'.current_state = device_state.idle) ∧
    (err ∈ audio_input.error_codes →
      ∃ e dev', audio_input.reset err dev = outcome.thrown e dev' ∧
        dev'.audio_block = dev.audio_block ∧ dev'.current_state = dev.current_state) := by
  constructor
  · intro h
    unfold audio_input.reset
    simp only [handle_error_returns err h]
    refine ⟨_, rfl, rfl, ?_⟩
    cases hs : dev.current_state <;> simp
  · intro h
    obtain ⟨e, he⟩ := handle_error_throws err h
    unfold audio_input.reset
    simp only [he]
    exact ⟨e, _, rfl, rfl, rfl⟩

/-- C7 (amended), at the recording session with two chars in the store: the
result `MMSYSERR_NOERROR` empties it, the result `MMSYSERR_INVALHANDLE` throws. -/
theorem reset_clears_unless_driver_error_witness :
    (MMSYSERR_NOERROR ∉ audio_input.error_codes ∧
      MMSYSERR_INVALHANDLE ∈ audio_input.error_codes) ∧
    (∃ dev', audio_input.reset MMSYSERR_NOERROR recording_dev = outcome.returned dev' ∧
        dev'.audio_block = [] ∧ dev'.current_state = device_state.idle) ∧
    (∃ e dev', audio_input.reset MMSYSERR_INVALHANDLE recording_dev = outcome.thrown e dev' ∧
        dev'.audio_block = recording_dev.audio_block ∧
        dev'.current_state = recording_dev.current_state) :=
  ⟨⟨by decide, by decide⟩,
    (reset_clears_unless_driver_error MMSYSERR_NOERROR recording_dev).1 (by decide),
    (reset_clears_unless_driver_error MMSYSERR_INVALHANDLE recording_dev).2 (by decide)⟩

/-- C7 as stated fails: when the driver answers the stream reset with
`MMSYSERR_INVALHANDLE`, `reset()` throws before it touches the session, and the
recording session keeps its two chars and its recording state. -/
theorem reset_invalid_handle_keeps_store :
    recording_dev.audio_block = [1, 2] ∧
    recording_dev.current_state = device_state.recording ∧
    audio_input.reset MMSYSERR_INVALHANDLE recording_dev
      = outcome.thrown (exception.runtime_error "Specified device handle is invalid.")
          { recording_dev with
            driver_calls := recording_dev.driver_calls ++ [driver_call.waveInReset] } ∧
    (audio_input.reset MMSYSERR_INVALHANDLE recording_dev).dev.audio_block = [1, 2] ∧
    (audio_input.reset MMSYSERR_INVALHANDLE recording_dev).dev.current_state
      = device_state.recording := by
  refine ⟨rfl, rfl, rfl, rfl, rfl⟩

/-- C8 (amended).  For every idle session: when the result the driver returns
for starting the stream is one of the seven codes `handle_error` turns into an
exception, `record()` throws it, the state stays idle and no worker is started;
for every other result code, success or not, `record()` moves to the recording
state and starts the worker. -/
theorem record_fails_on_error_codes (err : MMRESULT) (dev : audio_input)
    (h : dev.current_state = device_state.idle) :
    (err ∈ audio_input.error_codes →
      ∃ e, audio_input.record err dev
        = outcome.thrown e
            { dev with driver_calls := dev.driver_calls ++ [driver_call.waveInStart] }) ∧
    (err ∉ audio_input.error_codes →
      audio_input.record err dev
        = outcome.returned
            { dev with
              driver_calls := dev.driver_calls ++ [driver_call.waveInStart]
              current_state := device_state.recording
              record_thread := true }) := by
  constructor
  · intro hin
    obtain ⟨e, he⟩ := handle_error_throws err hin
    refine ⟨e, ?_⟩
    unfold audio_input.record
    simp only [h, if_true, he]
  · intro hout
    unfold audio_input.record
    simp only [h, if_true, handle_error_returns err hout]

/-- C8 (amended), at the idle session of `main`: `MMSYSERR_NODRIVER` makes
`record()` throw, `MMSYSERR_NOERROR` makes it record. -/
theorem record_fails_on_error_codes_witness :
    (main_dev.current_state = device_state.idle ∧
      MMSYSERR_NODRIVER ∈ audio_input.error_codes ∧
      MMSYSERR_NOERROR ∉ audio_input.error_codes) ∧
    (∃ e, audio_input.record MMSYSERR_NODRIVER main_dev
        = outcome.thrown e
            { main_dev with
              driver_calls := main_dev.driver_calls ++ [driver_call.waveInStart] }) ∧
    audio_input.record MMSYSERR_NOERROR main_dev
        = outcome.returned
            { main_dev with
              driver_calls := main_dev.driver_calls ++ [driver_call.waveInStart]
              current_state := device_state.recording
              record_thread := true } :=
  ⟨⟨rfl, by decide, by decide⟩,
    (record_fails_on_error_codes MMSYSERR_NODRIVER main_dev rfl).1 (by decide),
    (record_fails_on_error_codes MMSYSERR_NOERROR main_dev rfl).2 (by decide)⟩

/-- C8 as stated fails: `MMSYSERR_ERROR` is not success, yet `handle_error` lets
it pass, and `record()` on the idle session of `main` returns in the recording
state with the worker started. -/
theorem record_unlisted_error_starts_worker :
    MMSYSERR_ERROR ≠ MMSYSERR_NOERROR ∧
    main_dev.current_state = device_state.idle ∧
    audio_input.record MMSYSERR_ERROR main_dev
      = outcome.returned
          { main_dev with
            driver_calls := main_dev.driver_calls ++ [driver_call.waveInStart]
            current_state := device_state.recording
            record_thread := true } := by
  refine ⟨by decide, rfl, rfl⟩

/-- C9 (amended).  For every idle session `stop()` issues one driver call, the
stream reset.  When the driver answers with one of the seven codes
`handle_error` turns into an exception, `stop()` throws it; for every other
answer it returns.  Either way it leaves the session state, the store and both
capture buffers with their headers as they were: the logged call is the only
change. -/
theorem stop_idle_resets_stream (err : MMRESULT) (dev : audio_input)
    (h : dev.current_state = device_state.idle) :
    (err ∉ audio_input.error_codes →
      audio_input.stop err dev
        = outcome.returned
            { dev with driver_calls := dev.driver_calls ++ [driver_call.waveInReset] }) ∧
    (err ∈ audio_input.error_codes →
      ∃ e, audio_input.stop err dev
        = outcome.thrown e
            { dev with driver_calls := dev.driver_calls ++ [driver_call.waveInReset] }) := by
  constructor
  · intro hout
    unfold audio_input.stop
    simp [h, handle_error_returns err hout]
  · intro hin
    obtain ⟨e, he⟩ := handle_error_throws err hin
    refine ⟨e, ?_⟩
    unfold audio_input.stop
    simp only [he]

/-- C9 (amended), at the idle session of `main`. -/
theorem stop_idle_resets_stream_witness :
    (main_dev.current_state = device_state.idle ∧
      MMSYSERR_NOERROR ∉ audio_input.error_codes ∧
      MMSYSERR_NOMEM ∈ audio_input.error_codes) ∧
    audio_input.stop MMSYSERR_NOERROR main_dev
        = outcome.returned
            { main_dev with
              driver_calls := main_dev.driver_calls ++ [driver_call.waveInReset] } ∧
    (∃ e, audio_input.stop MMSYSERR_NOMEM main_dev
        = outcome.thrown e
            { main_dev with
              driver_calls := main_dev.driver_calls ++ [driver_call.waveInReset] }) :=
  ⟨⟨rfl, by decide, by decide⟩,
    (stop_idle_resets_stream MMSYSERR_NOERROR main_dev rfl).1 (by decide),
    (stop_idle_resets_stream MMSYSERR_NOMEM main_dev rfl).2 (by decide)⟩

/-- C9 as stated fails: on the idle session of `main`, `stop()` does call the
driver (the log grows by `waveInReset`), and when the driver answers
`MMSYSERR_INVALHANDLE` it throws. -/
theorem stop_idle_calls_driver_and_may_throw :
    main_dev.current_state = device_state.idle ∧
    (audio_input.stop MMSYSERR_NOERROR main_dev).dev.driver_calls
      = main_dev.driver_calls ++ [driver_call.waveInReset] ∧
    audio_input.stop MMSYSERR_INVALHANDLE main_dev
      = outcome.thrown (exception.runtime_error "Specified device handle is invalid.")
          { main_dev with
            driver_calls := main_dev.driver_calls ++ [driver_call.waveInReset] } := by
  refine ⟨rfl, rfl, rfl⟩

/-! ## The capture worker -/

/-- After the driver has taken a buffer back, its `WHDR_DONE` bit is clear. -/
theorem flag_cleared (f : Nat) : ¬ ((f ^^^ (f &&& WHDR_DONE)) &&& 1 = WHDR_DONE) := by
  unfold WHDR_DONE
  rw [Nat.and_one_is_mod, Nat.and_one_is_mod]
  have h := Nat.mod_two_eq_zero_or_one f
  rcases h with h | h
  · rw [h]; simp; omega
  · rw [h]
    have : (f ^^^ 1) % 2 = 0 := by
      rw [← Nat.and_one_is_mod]
      apply Nat.eq_of_testBit_eq
      intro i
      simp [Nat.testBit_and, Nat.testBit_xor]
      cases i with
      | zero => simp [Nat.testBit_zero, h]; omega
      | succ n => simp [Nat.testBit_succ]
    omega

/-- One pass of the loop, when the state reads `recording` and both buffers are
still with the driver: the two waits take the next two completions. -/
theorem _record_pass (k : Nat) (c1 c2 : completion) (cs : List completion)
    (dev : audio_input) (hs : dev.current_state = device_state.recording)
    (h1 : ¬ (dev.buffer1_params.dwFlags &&& 1 = WHDR_DONE))
    (h2 : ¬ (dev.buffer2_params.dwFlags &&& 1 = WHDR_DONE)) :
    audio_input._record (k + 1) (c1 :: c2 :: cs) dev
      = audio_input._record k cs (audio_input.pass c1 c2 dev) := by
  rw [audio_input._record, if_pos hs, audio_input.wait1, if_neg h1]
  simp only
  rw [audio_input.wait2, if_neg (by exact h2)]
  rfl

theorem pass_audio_block (c1 c2 : completion) (dev : audio_input) :
    (audio_input.pass c1 c2 dev).audio_block
      = dev.audio_block ++ (c1.filled ++ c2.filled) := by
  simp [audio_input.pass, audio_input.resubmit1, audio_input.resubmit2, audio_input.complete1,
    audio_input.complete2, completion.filled]

theorem pass_flags (c1 c2 : completion) (dev : audio_input) :
    ¬ ((audio_input.pass c1 c2 dev).buffer1_params.dwFlags &&& 1 = WHDR_DONE) ∧
    ¬ ((audio_input.pass c1 c2 dev).buffer2_params.dwFlags &&& 1 = WHDR_DONE) :=
  ⟨flag_cleared _, flag_cleared _⟩

/-- A worker that makes `k` passes while at least `2 * k` completions arrive
leaves its loop, with the first `2 * k` completions appended in delivery order. -/
theorem _record_even (k : Nat) :
    ∀ (cs : List completion) (dev : audio_input),
      dev.current_state = device_state.recording →
      ¬ (dev.buffer1_params.dwFlags &&& 1 = WHDR_DONE) →
      ¬ (dev.buffer2_params.dwFlags &&& 1 = WHDR_DONE) →
      2 * k ≤ cs.length →
      ∃ dev', audio_input._record k cs dev = worker.exited dev' ∧
        dev'.audio_block = dev.audio_block ++ (cs.take (2 * k)).flatMap completion.filled ∧
        dev'.current_state = device_state.recording := by
  induction k with
  | zero =>
    intro cs dev hs _ _ _
    exact ⟨dev, rfl, by simp, hs⟩
  | succ k ih =>
    intro cs dev hs h1 h2 hlen
    match cs, hlen with
    | c1 :: c2 :: cs, hlen =>
      have hlen' : 2 * k ≤ cs.length := by simp at hlen; omega
      obtain ⟨dev', hrun, hblock, hstate⟩ :=
        ih cs (audio_input.pass c1 c2 dev) hs (pass_flags c1 c2 dev).1
          (pass_flags c1 c2 dev).2 hlen'
      refine ⟨dev', ?_, ?_, hstate⟩
      · rw [_record_pass k c1 c2 cs dev hs h1 h2, hrun]
      · rw [hblock, pass_audio_block]
        have e : 2 * (k + 1) = 2 * k + 1 + 1 := by omega
        rw [e, List.take_succ_cons, List.take_succ_cons]
        simp [List.flatMap]
    | [_], hlen => simp at hlen; omega
    | [], hlen => simp at hlen

theorem filled_length (cs : List completion) (hvalid : ∀ c ∈ cs, c.valid) :
    (cs.flatMap completion.filled).length = (cs.map completion.dwBytesRecorded).sum := by
  induction cs with
  | nil => rfl
  | cons c cs ih =>
    have hc := hvalid c (List.mem_cons_self _ _)
    unfold completion.valid at hc
    simp only [List.flatMap_cons, List.length_append, List.map_cons, List.sum_cons,
      ih (fun x hx => hvalid x (List.mem_cons_of_mem _ hx)), completion.filled,
      List.length_take]
    omega

/-- C1 (amended).  For every `k` and every sequence of `N ≥ 2 * k` buffer
completions delivered alternately to buffer 1, buffer 2, buffer 1, ... (each a
whole buffer with a filled count of at most 4096), starting from an idle session
with an empty store and both buffers queued, whose worker makes `k` passes
before it reads the state written by `stop()`: `stop()` returns, and the store
is then the concatenation, in delivery order, of the first `dwBytesRecorded`
chars of each of the first `2 * k` completions, its length the sum of their
counts.  For `N = 2 * k` these are all the completions of the sequence. -/
theorem record_then_stop_concatenates (k : Nat) (cs : List completion) (dev : audio_input)
    (hidle : dev.current_state = device_state.idle)
    (hempty : dev.audio_block = [])
    (h1 : ¬ (dev.buffer1_params.dwFlags &&& 1 = WHDR_DONE))
    (h2 : ¬ (dev.buffer2_params.dwFlags &&& 1 = WHDR_DONE))
    (hlen : 2 * k ≤ cs.length)
    (hvalid : ∀ c ∈ cs, c.valid) :
    ∃ dev', audio_input.record_then_stop k cs dev = some dev' ∧
      dev'.audio_block = (cs.take (2 * k)).flatMap completion.filled ∧
      dev'.audio_block.length = ((cs.take (2 * k)).map completion.dwBytesRecorded).sum ∧
      (cs.length = 2 * k → dev'.audio_block = cs.flatMap completion.filled) ∧
      dev'.current_state = device_state.idle := by
  have hrec : audio_input.record MMSYSERR_NOERROR dev
      = outcome.returned
          { dev with
            driver_calls := dev.driver_calls ++ [driver_call.waveInStart]
            current_state := device_state.recording
            record_thread := true } := by
    unfold audio_input.record
    simp only [hidle, if_true, handle_error_returns MMSYSERR_NOERROR (by decide)]
  obtain ⟨dev1, hrun, hblock, hstate⟩ :=
    _record_even k cs
      { dev with
        driver_calls := dev.driver_calls ++ [driver_call.waveInStart]
        current_state := device_state.recording
        record_thread := true } rfl h1 h2 hlen
  have hstop : audio_input.stop MMSYSERR_NOERROR dev1
      = outcome.returned
          { dev1 with
            driver_calls := dev1.driver_calls ++ [driver_call.waveInReset]
            current_state := device_state.idle
            record_thread := false } := by
    unfold audio_input.stop
    simp [hstate, handle_error_returns MMSYSERR_NOERROR (by decide)]
  have hb : dev1.audio_block = (cs.take (2 * k)).flatMap completion.filled := by
    simp only [hblock, hempty, List.nil_append]
  refine ⟨{ dev1 with
            driver_calls := dev1.driver_calls ++ [driver_call.waveInReset]
            current_state := device_state.idle
            record_thread := false }, ?_, hb, ?_, ?_, rfl⟩
  · simp only [audio_input.record_then_stop, hrec, hrun, hstop]
  · simp only [hb]
    exact filled_length _ (fun c hc => hvalid c (List.mem_of_mem_take hc))
  · intro hall
    simp only [hb]
    rw [← hall, List.take_length]

theorem replicate_valid (x : Int) (n : Nat) (hx : is_char x) (hn : n ≤ audio_input.buffer_size) :
    ({ data := List.replicate audio_input.buffer_size x, dwBytesRecorded := n } :
      completion).valid := by
  refine ⟨by simp, hn, ?_⟩
  intro y hy
  rw [(List.mem_replicate.mp hy).2]
  exact hx

/-- C1 (amended), at the session of `main` with one pass over two completions,
of two and of three chars: the store ends up as 7, 7, 8, 8, 8. -/
theorem record_then_stop_concatenates_witness :
    (main_dev.current_state = device_state.idle ∧ main_dev.audio_block = [] ∧
      ¬ (main_dev.buffer1_params.dwFlags &&& 1 = WHDR_DONE) ∧
      ¬ (main_dev.buffer2_params.dwFlags &&& 1 = WHDR_DONE) ∧
      2 * 1 ≤ [two_sevens, three_eights].length ∧
      (∀ c ∈ [two_sevens, three_eights], c.valid) ∧
      [two_sevens, three_eights].flatMap completion.filled = [7, 7, 8, 8, 8]) ∧
    ∃ dev', audio_input.record_then_stop 1 [two_sevens, three_eights] main_dev = some dev' ∧
      dev'.audio_block
        = ([two_sevens, three_eights].take (2 * 1)).flatMap completion.filled ∧
      dev'.audio_block.length
        = (([two_sevens, three_eights].take (2 * 1)).map completion.dwBytesRecorded).sum ∧
      ([two_sevens, three_eights].length = 2 * 1
        → dev'.audio_block = [two_sevens, three_eights].flatMap completion.filled) ∧
      dev'.current_state = device_state.idle := by
  have hv : ∀ c ∈ [two_sevens, three_eights], c.valid := by
    intro c hc
    simp only [List.mem_cons, List.mem_singleton, List.not_mem_nil, or_false] at hc
    rcases hc with hc | hc <;> subst hc
    · exact replicate_valid 7 2 (by decide) (by decide)
    · exact replicate_valid 8 3 (by decide) (by decide)
  exact ⟨⟨rfl, rfl, by decide, by decide, by decide, hv, rfl⟩,
    record_then_stop_concatenates 1 [two_sevens, three_eights] main_dev rfl rfl
      (by decide) (by decide) (by decide) hv⟩

/-- C1 as stated fails for `N = 1`.  One completion of one char is delivered to
buffer 1 of the session of `main`.  If the worker reads the state written by
`stop()` before its first pass, `stop()` returns with an empty store; otherwise
the worker appends the char and then waits for buffer 2 for ever, and `stop()`
does not return.  No run ends with the store holding that one char. -/
theorem record_then_stop_single_completion :
    one_seven.valid ∧
    [one_seven].flatMap completion.filled = [7] ∧
    (audio_input.record_then_stop 0 [one_seven] main_dev).map (fun d => d.audio_block)
      = some [] ∧
    audio_input.record_then_stop 1 [one_seven] main_dev = none ∧
    ¬ ∃ k dev', audio_input.record_then_stop k [one_seven] main_dev = some dev' ∧
        dev'.audio_block = [one_seven].flatMap completion.filled := by
  refine ⟨replicate_valid 7 1 (by decide) (by decide), rfl, rfl, rfl, ?_⟩
  rintro ⟨k, dev', hrun, hblock⟩
  cases k with
  | zero =>
    have h0 : (audio_input.record_then_stop 0 [one_seven] main_dev).map
        (fun d => d.audio_block) = some [] := rfl
    rw [hrun] at h0
    simp only [Option.map_some', Option.some.injEq] at h0
    rw [h0] at hblock
    exact absurd hblock (by decide)
  | succ k =>
    have h1 : audio_input.record_then_stop (k + 1) [one_seven] main_dev = none := rfl
    rw [h1] at hrun
    cases hrun

/-! ## The name of the exported file -/

/-- C10 (the code departs from the claim).  The constructor of `wav_file` has no
test of the length of the name, and for a name shorter than `.wav` it compares
chars that lie before the name.  For the name `wav`, when the char in memory
right before it is a dot, the four chars compared are `.wav`: nothing is
appended, and the file opened is `wav`, which does not end in `.wav`.  Likewise
the empty name stays empty when the four chars before it are `.wav`.  With other
chars before it, `wav` becomes `wav.wav`. -/
theorem export_wav_short_name_reads_before_name :
    (audio_input.wav_file.ctor_named true ".".data main_dev "wav".data).toOption.map
      (fun w => w.file_name) = some "wav".data ∧
    ¬ List.IsSuffix ".wav".data "wav".data ∧
    (audio_input.wav_file.ctor_named true ".wav".data main_dev "".data).toOption.map
      (fun w => w.file_name) = some "".data ∧
    (audio_input.wav_file.ctor_named true "abcd".data main_dev "wav".data).toOption.map
      (fun w => w.file_name) = some "wav.wav".data ∧
    (audio_input.export_wav_named MMSYSERR_NOERROR true 0 ".".data "wav".data
      main_dev).file.map (fun p => p.w.file_name) = some "wav".data := by
  refine ⟨by decide, ?_, by decide, by decide, by decide⟩
  intro h
  have := List.IsSuffix.length_le h
  exact absurd this (by decide)

/-! ## Further properties -/

/-- The comparison in the constructor of `wav_file` finds `.wav` exactly when the
name ends in `.wav`, for a name of four chars or more and for a shorter name
that is not a tail of `.wav`, whatever lies in memory before the name. -/
theorem ctor_named_range (memory file_name : List Char)
    (h : 4 ≤ file_name.length ∨ ¬ List.IsSuffix file_name ".wav".data) :
    (memory ++ file_name).drop ((memory ++ file_name).length - (".wav".data).length)
      = ".wav".data ↔ List.IsSuffix ".wav".data file_name := by
  have hlen : (".wav".data).length = 4 := rfl
  by_cases h4 : 4 ≤ file_name.length
  · have e : (memory ++ file_name).length - (".wav".data).length
        = memory.length + (file_name.length - (".wav".data).length) := by
      rw [List.length_append, hlen]; omega
    rw [e, List.drop_append, List.suffix_iff_eq_drop]
    exact eq_comm
  · have hns : ¬ List.IsSuffix file_name ".wav".data := by
      rcases h with h | h
      · exact absurd h h4
      · exact h
    constructor
    · intro hr
      exfalso
      apply hns
      have hs1 : List.IsSuffix
          ((memory ++ file_name).drop
            ((memory ++ file_name).length - (".wav".data).length))
          (memory ++ file_name) := List.drop_suffix _ _
      have hs2 : List.IsSuffix file_name (memory ++ file_name) := List.suffix_append _ _
      rw [hr] at hs1
      exact List.suffix_of_suffix_length_le hs2 hs1 (by rw [hlen]; omega)
    · intro hs
      have := List.IsSuffix.length_le hs
      rw [hlen] at this
      omega

/-- X1.  For every caller-supplied name of four chars or more, and for every
shorter name that is not a tail of `.wav`, whatever lies in memory before it: the
name `wav_file` opens ends in `.wav`; a name that already ends in `.wav` is used
unchanged, any other name has `.wav` appended, and normalising the result again
gives the same name. -/
theorem ctor_named_forces_extension (memory : List Char) (dev : audio_input)
    (file_name : List Char)
    (h : 4 ≤ file_name.length ∨ ¬ List.IsSuffix file_name ".wav".data) :
    ∃ w, audio_input.wav_file.ctor_named true memory dev file_name = Except.ok w ∧
      List.IsSuffix ".wav".data w.file_name ∧
      (List.IsSuffix ".wav".data file_name → w.file_name = file_name) ∧
      (¬ List.IsSuffix ".wav".data file_name → w.file_name = file_name ++ ".wav".data) ∧
      ∀ memory', audio_input.wav_file.ctor_named true memory' dev w.file_name
        = Except.ok w := by
  have hlen : (".wav".data).length = 4 := rfl
  have hr := ctor_named_range memory file_name h
  by_cases hs : List.IsSuffix ".wav".data file_name
  · have h4 : 4 ≤ file_name.length := by
      have := List.IsSuffix.length_le hs
      rw [hlen] at this
      exact this
    refine ⟨audio_input.wav_file.initial dev file_name, ?_, hs, fun _ => rfl,
      fun hn => absurd hs hn, ?_⟩
    · unfold audio_input.wav_file.ctor_named
      simp only [hr.2 hs, not_true_eq_false, if_false, if_true]
    · intro memory'
      show audio_input.wav_file.ctor_named true memory' dev file_name = _
      unfold audio_input.wav_file.ctor_named
      simp only [(ctor_named_range memory' file_name (Or.inl h4)).2 hs, not_true_eq_false,
        if_false, if_true]
  · have hs2 : List.IsSuffix ".wav".data (file_name ++ ".wav".data) :=
      List.suffix_append _ _
    have h4 : 4 ≤ (file_name ++ ".wav".data).length := by
      rw [List.length_append, hlen]; omega
    refine ⟨audio_input.wav_file.initial dev (file_name ++ ".wav".data), ?_, hs2,
      fun hy => absurd hy hs, fun _ => rfl, ?_⟩
    · have hne : ¬ ((memory ++ file_name).drop
          ((memory ++ file_name).length - (".wav".data).length) = ".wav".data) :=
        fun hx => hs (hr.1 hx)
      unfold audio_input.wav_file.ctor_named
      simp only [hne, not_false_eq_true, if_false, if_true]
    · intro memory'
      show audio_input.wav_file.ctor_named true memory' dev (file_name ++ ".wav".data) = _
      unfold audio_input.wav_file.ctor_named
      simp only [(ctor_named_range memory' _ (Or.inl h4)).2 hs2, not_true_eq_false,
        if_false, if_true]

/-- X1, at the names `take1` and `a`. -/
theorem ctor_named_forces_extension_witness :
    ((4 ≤ ("take1".data).length ∨ ¬ List.IsSuffix "take1".data ".wav".data) ∧
      (4 ≤ ("a".data).length ∨ ¬ List.IsSuffix "a".data ".wav".data)) ∧
    (∃ w, audio_input.wav_file.ctor_named true "xyz.".data main_dev "take1".data
        = Except.ok w ∧
      List.IsSuffix ".wav".data w.file_name ∧
      (List.IsSuffix ".wav".data "take1".data → w.file_name = "take1".data) ∧
      (¬ List.IsSuffix ".wav".data "take1".data
        → w.file_name = "take1".data ++ ".wav".data) ∧
      ∀ memory', audio_input.wav_file.ctor_named true memory' main_dev w.file_name
        = Except.ok w) ∧
    (∃ w, audio_input.wav_file.ctor_named true ".wa".data main_dev "a".data
        = Except.ok w ∧
      List.IsSuffix ".wav".data w.file_name ∧
      (List.IsSuffix ".wav".data "a".data → w.file_name = "a".data) ∧
      (¬ List.IsSuffix ".wav".data "a".data → w.file_name = "a".data ++ ".wav".data) ∧
      ∀ memory', audio_input.wav_file.ctor_named true memory' main_dev w.file_name
        = Except.ok w) := by
  have ha : ¬ List.IsSuffix "a".data ".wav".data := by
    rw [List.suffix_iff_eq_drop]
    decide
  exact ⟨⟨Or.inl (by decide), Or.inr ha⟩,
    ctor_named_forces_extension "xyz.".data main_dev "take1".data (Or.inl (by decide)),
    ctor_named_forces_extension ".wa".data main_dev "a".data (Or.inr ha)⟩

/-- X2.  On a session that is recording, `record()` is a no-op whatever the
driver would answer: it issues no driver call and returns the session as it
was, so calling `record()` twice has the effect of calling it once. -/
theorem record_while_recording (err : MMRESULT) (dev : audio_input)
    (h : dev.current_state = device_state.recording) :
    audio_input.record err dev = outcome.returned dev := by
  unfold audio_input.record
  simp [h]

/-- X2, at the recording session. -/
theorem record_while_recording_witness :
    recording_dev.current_state = device_state.recording ∧
    audio_input.record MMSYSERR_NOERROR recording_dev = outcome.returned recording_dev :=
  ⟨rfl, record_while_recording MMSYSERR_NOERROR recording_dev rfl⟩

/-- X3.  The member `clear()` empties the store and changes nothing else: the
session state, the thread, the format and the driver log stay as they were. -/
theorem clear_empties_store (dev : audio_input) :
    (audio_input.clear dev).audio_block = [] ∧
    (audio_input.clear dev).current_state = dev.current_state ∧
    (audio_input.clear dev).record_thread = dev.record_thread ∧
    (audio_input.clear dev).driver_calls = dev.driver_calls ∧
    (audio_input.clear dev).format_params = dev.format_params := ⟨rfl, rfl, rfl, rfl, rfl⟩

/-- X4.  For every session whose store is below 2^32 chars, the output of
`export_file` starts with `RIFF`, has `WAVEfmt ` at offset 8, the `fmt ` chunk
size 16 at offset 16 and `data` at offset 36. -/
theorem wav_bytes_layout (passes : Nat) (dev : audio_input)
    (hN : dev.audio_block.length < 4294967296) (hp : dev.audio_block.length ≤ passes) :
    (dev.wav_bytes passes).take 4 = [82, 73, 70, 70] ∧
    ((dev.wav_bytes passes).drop 8).take 8 = [87, 65, 86, 69, 102, 109, 116, 32] ∧
    le_field (dev.wav_bytes passes) 16 4 = 16 ∧
    ((dev.wav_bytes passes).drop 36).take 4 = [100, 97, 116, 97] := by
  rw [(wav_export_returns passes dev hN hp).2]
  refine ⟨?_, ?_, ?_, ?_⟩ <;> simp [wav_header, le_bytes, le_field, static_cast_char]

/-- X4, at the session of `main` with five chars in the store. -/
theorem wav_bytes_layout_witness :
    (recorded_dev.audio_block.length < 4294967296 ∧ recorded_dev.audio_block.length ≤ 5) ∧
    (recorded_dev.wav_bytes 5).take 4 = [82, 73, 70, 70] ∧
    ((recorded_dev.wav_bytes 5).drop 8).take 8 = [87, 65, 86, 69, 102, 109, 116, 32] ∧
    le_field (recorded_dev.wav_bytes 5) 16 4 = 16 ∧
    ((recorded_dev.wav_bytes 5).drop 36).take 4 = [100, 97, 116, 97] :=
  ⟨⟨by decide, by decide⟩, wav_bytes_layout 5 recorded_dev (by decide) (by decide)⟩

theorem _record_starved (k : Nat) :
    ∀ (cs : List completion) (dev : audio_input),
      dev.current_state = device_state.recording →
      ¬ (dev.buffer1_params.dwFlags &&& 1 = WHDR_DONE) →
      ¬ (dev.buffer2_params.dwFlags &&& 1 = WHDR_DONE) →
      cs.length < 2 * k →
      ∃ dev', audio_input._record k cs dev = worker.blocked dev' := by
  induction k with
  | zero => intro cs dev _ _ _ hlen; omega
  | succ k ih =>
    intro cs dev hs h1 h2 hlen
    match cs, hlen with
    | c1 :: c2 :: cs, hlen =>
      have hlen' : cs.length < 2 * k := by simp at hlen; omega
      obtain ⟨dev', hrun⟩ :=
        ih cs (audio_input.pass c1 c2 dev) hs (pass_flags c1 c2 dev).1
          (pass_flags c1 c2 dev).2 hlen'
      exact ⟨dev', by rw [_record_pass k c1 c2 cs dev hs h1 h2, hrun]⟩
    | [c1], _ =>
      rw [audio_input._record, if_pos hs, audio_input.wait1, if_neg h1]
      simp only
      rw [audio_input.wait2, if_neg (by exact h2)]
      exact ⟨_, rfl⟩
    | [], _ =>
      rw [audio_input._record, if_pos hs, audio_input.wait1, if_neg h1]
      exact ⟨_, rfl⟩

/-- X5.  Starting from an idle session with both buffers queued: when the
worker begins `k` passes and fewer than `2 * k` completions are ever delivered,
it ends up waiting for a completion that never comes, and `stop()` does not
return. -/
theorem stop_waits_for_starved_worker (k : Nat) (cs : List completion) (dev : audio_input)
    (hidle : dev.current_state = device_state.idle)
    (h1 : ¬ (dev.buffer1_params.dwFlags &&& 1 = WHDR_DONE))
    (h2 : ¬ (dev.buffer2_params.dwFlags &&& 1 = WHDR_DONE))
    (hlen : cs.length < 2 * k) :
    audio_input.record_then_stop k cs dev = none := by
  have hrec : audio_input.record MMSYSERR_NOERROR dev
      = outcome.returned
          { dev with
            driver_calls := dev.driver_calls ++ [driver_call.waveInStart]
            current_state := device_state.recording
            record_thread := true } := by
    unfold audio_input.record
    simp only [hidle, if_true, handle_error_returns MMSYSERR_NOERROR (by decide)]
  obtain ⟨dev1, hrun⟩ :=
    _record_starved k cs
      { dev with
        driver_calls := dev.driver_calls ++ [driver_call.waveInStart]
        current_state := device_state.recording
        record_thread := true } rfl h1 h2 hlen
  simp only [audio_input.record_then_stop, hrec, hrun]

/-- X5, at the session of `main` with two passes begun and three completions. -/
theorem stop_waits_for_starved_worker_witness :
    (main_dev.current_state = device_state.idle ∧
      ¬ (main_dev.buffer1_params.dwFlags &&& 1 = WHDR_DONE) ∧
      ¬ (main_dev.buffer2_params.dwFlags &&& 1 = WHDR_DONE) ∧
      [two_sevens, three_eights, one_seven].length < 2 * 2) ∧
    audio_input.record_then_stop 2 [two_sevens, three_eights, one_seven] main_dev = none :=
  ⟨⟨rfl, by decide, by decide, by decide⟩,
    stop_waits_for_starved_worker 2 [two_sevens, three_eights, one_seven] main_dev rfl
      (by decide) (by decide) (by decide)⟩

end sound
